import Mathlib

/-!
Verification development for the scheduled batch-broadcast engine
(`app.py`, `tg_client.py`, `config.py`).

Python strings are modelled as `List Char` (Python `len` counts characters
and slicing `s[:n]` is `List.take n`).  Python list slicing `xs[a:b]` is
`(xs.drop a).take (b - a)`.  Fallible operations return `Option`/`Except`.
-/

namespace TgClient

/-- Embedding of `tg_client.validate_lengths`:
`if not text: return ""`; `max_len = 1024 if has_media else 4096`;
`return text[:max_len] if len(text) > max_len else text`. -/
def validate_lengths (text : List Char) (has_media : Bool) : List Char :=
  if text = [] then []
  else
    let max_len : Nat := if has_media then 1024 else 4096
    if text.length > max_len then text.take max_len else text

/-- Events produced by one `broadcast` call: the per-batch log line and the
per-destination send outcome (`ok` on success, `failLog` when the send raised
and the exception was caught and logged). -/
inductive Ev (α : Type) where
  | batchLog (idx size : Nat)
  | ok (cid : α)
  | failLog (cid : α)
deriving DecidableEq

/-- One iteration of the inner `for cid in batch` loop of `broadcast`:
the send is attempted; an exception is caught and logged, never propagated.
`fails` is the oracle saying which destinations' sends raise. -/
def sendOne (fails : α → Bool) (cid : α) : Ev α :=
  if fails cid then Ev.failLog cid else Ev.ok cid

/-- Fuel-indexed chunking: the batches visited by
`for i in range(0, total, batch_size): batch = chat_ids[i:i + batch_size]`.
Each iteration consumes `batch_size ≥ 1` elements, so `l.length` fuel always
suffices (see `chunks`); the fuel only makes the recursion structural. -/
def chunksAux (b : Nat) : Nat → List α → List (List α)
  | 0, _ => []
  | _, [] => []
  | fuel + 1, x :: xs => (x :: xs).take b :: chunksAux b fuel ((x :: xs).drop b)

/-- The contiguous batches of size `b` produced by the `range(0, total, b)`
loop of `tg_client.broadcast`.  In Python a step of `0` raises `ValueError`
before any iteration; every caller passes `batch_size ≥ 1` (the UI enforces
`min_value=1`), and the model returns no batches for `b = 0`. -/
def chunks (b : Nat) (l : List α) : List (List α) :=
  if b = 0 then [] else chunksAux b l.length l

/-- Trace of the chunk loop of `broadcast` starting at batch index `idx`:
`logger.info(f"Sending batch {i//batch_size + 1} - {len(batch)} chats")`
followed by one send attempt per destination of the batch. -/
def traceChunks (fails : α → Bool) : Nat → List (List α) → List (Ev α)
  | _, [] => []
  | idx, c :: cs =>
      Ev.batchLog idx c.length :: (c.map (sendOne fails) ++ traceChunks fails (idx + 1) cs)

/-- Embedding of `tg_client.broadcast` over destination list `D` with batch
size `b`: the full event trace of the call.  The first batch is logged with
index `0 // b + 1 = 1`. -/
def broadcastTrace (fails : α → Bool) (D : List α) (b : Nat) : List (Ev α) :=
  traceChunks fails 1 (chunks b D)

/-- Whether an event is a send attempt (as opposed to a batch log line). -/
def isSendEv : Ev α → Bool
  | Ev.batchLog _ _ => false
  | Ev.ok _ => true
  | Ev.failLog _ => true

/-- The destination of a send event, `none` for a log line. -/
def evCid : Ev α → Option α
  | Ev.batchLog _ _ => none
  | Ev.ok c => some c
  | Ev.failLog c => some c

/-- The send events of a trace, log lines removed. -/
def sendEvents : List (Ev α) → List (Ev α) :=
  List.filter isSendEv

/-- The destinations attempted in a trace, in order, whether the attempt
succeeded or failed. -/
def attempted : List (Ev α) → List α :=
  List.filterMap evCid

/-- Modelled from the spec: the flat sequential iteration the Batch
Broadcaster refines — one send attempt per destination of the input list,
in input order, with no chunk structure. -/
def flatTrace (fails : α → Bool) (D : List α) : List (Ev α) :=
  D.map (sendOne fails)

/-- The text actually sent by `broadcast` for a payload: the caption
`validate_lengths(text, has_media=True)` when a media path is present, the
message `validate_lengths(text, has_media=False)` otherwise. -/
def sentText (text : List Char) (media_path : Option (List Char)) : List Char :=
  validate_lengths text media_path.isSome

end TgClient

namespace App

open TgClient

/-- Parsed content of `data/chat_targets.json`:
`{chat_ids: [...], default_batch_size: ...}`. -/
structure Targets where
  chat_ids : List String
  default_batch_size : Nat
deriving DecidableEq

/-- Parsed content of `data/message.json`: `{text: ..., media_path: ...}`. -/
structure Message where
  text : List Char
  media_path : Option (List Char)
deriving DecidableEq

/-- Embedding of `app.load_targets`: the parsed file when it exists, the
fixed default `{"chat_ids": [], "default_batch_size": 15}` otherwise. -/
def load_targets (file : Option Targets) : Targets :=
  match file with
  | some t => t
  | none => { chat_ids := [], default_batch_size := 15 }

/-- Embedding of `app.load_message`: the parsed file when it exists, the
fixed default `{"text": "", "media_path": None}` otherwise. -/
def load_message (file : Option Message) : Message :=
  match file with
  | some m => m
  | none => { text := [], media_path := none }

/-- The phase's destination subset computed by `job_runner_sync`:
`chat_ids[:batch_size]` when `phase == 1`, `chat_ids[batch_size:]`
otherwise. -/
def phase_ids (phase : Nat) (chat_ids : List α) (batch_size : Nat) : List α :=
  if phase = 1 then chat_ids.take batch_size else chat_ids.drop batch_size

end App

/-- C1: for every destination list `D` and batch size `b`, the phase-1
subset is `D[0:b]`, the phase-2 subset is `D[b:]`, and their concatenation
is exactly `D` — no overlap, no omission, no reordering. -/
theorem C1_phase_partition (D : List α) (b : Nat) :
    App.phase_ids 1 D b = D.take b ∧
    App.phase_ids 2 D b = D.drop b ∧
    App.phase_ids 1 D b ++ App.phase_ids 2 D b = D := by
  refine ⟨by simp [App.phase_ids], by simp [App.phase_ids], ?_⟩
  simp [App.phase_ids]

/-- Helper: `validate_lengths` always returns a prefix of the input, bounded
by the media-dependent limit, and returns the input unchanged when it is
already within the limit. -/
lemma validate_lengths_spec (text : List Char) (hm : Bool) :
    (∃ rest, TgClient.validate_lengths text hm ++ rest = text) ∧
    (TgClient.validate_lengths text hm).length ≤ (if hm then 1024 else 4096) ∧
    (text.length ≤ (if hm then 1024 else 4096) →
      TgClient.validate_lengths text hm = text) := by
  unfold TgClient.validate_lengths
  by_cases hnil : text = []
  · subst hnil
    exact ⟨⟨[], rfl⟩, by cases hm <;> simp, by cases hm <;> simp⟩
  · rw [if_neg hnil]
    by_cases hlen : text.length > (if hm then 1024 else 4096)
    · rw [if_pos hlen]
      refine ⟨⟨text.drop _, List.take_append_drop _ _⟩, ?_, fun h => by omega⟩
      rw [List.length_take]
      omega
    · rw [if_neg hlen]
      exact ⟨⟨[], List.append_nil _⟩, by omega, fun _ => rfl⟩

/-- C2: the text actually sent is the truncation of the payload: a prefix of
the original, of length at most 4096 without media and at most 1024 with
media, and the original itself when already within the limit (truncation,
never rejection). -/
theorem C2_truncation (text : List Char) (media_path : Option (List Char)) :
    (∃ rest, TgClient.sentText text media_path ++ rest = text) ∧
    (TgClient.sentText text media_path).length ≤
      (if media_path.isSome then 1024 else 4096) ∧
    (text.length ≤ (if media_path.isSome then 1024 else 4096) →
      TgClient.sentText text media_path = text) := by
  have h := validate_lengths_spec text media_path.isSome
  cases media_path <;> simpa [TgClient.sentText] using h

/-- C2 witness: a 5000-character text without media is truncated to its
4096-character prefix. -/
theorem C2_truncation_witness :
    (∃ rest, TgClient.sentText (List.replicate 5000 'a') none ++ rest =
      List.replicate 5000 'a') ∧
    (TgClient.sentText (List.replicate 5000 'a') none).length ≤ 4096 :=
  ⟨(C2_truncation (List.replicate 5000 'a') none).1,
    (C2_truncation (List.replicate 5000 'a') none).2.1⟩

namespace TgClient

/-- Helper: with a positive batch size and enough fuel, concatenating the
chunks gives back the original list. -/
lemma chunksAux_join (b : Nat) (hb : b ≠ 0) :
    ∀ (fuel : Nat) (l : List α), l.length ≤ fuel → (chunksAux b fuel l).flatten = l := by
  intro fuel
  induction fuel with
  | zero =>
      intro l hl
      have : l = [] := List.eq_nil_of_length_eq_zero (Nat.le_zero.mp hl)
      subst this; rfl
  | succ n ih =>
      intro l hl
      cases l with
      | nil => rfl
      | cons x xs =>
          rw [chunksAux, List.flatten_cons, ih ((x :: xs).drop b) ?_,
            List.take_append_drop]
          rw [List.length_drop]
          have hlen : (x :: xs).length ≤ n + 1 := hl
          omega

/-- Helper: the chunks of the `range(0, total, b)` loop concatenate to the
input list. -/
lemma chunks_join (b : Nat) (hb : b ≠ 0) (l : List α) : (chunks b l).flatten = l := by
  unfold chunks
  rw [if_neg hb]
  exact chunksAux_join b hb l.length l (Nat.le_refl _)

/-- Helper: the attempted destinations of one batch's inner loop are exactly
the batch, whatever the failure oracle says. -/
lemma attempted_map_sendOne (fails : α → Bool) (c : List α) :
    attempted (c.map (sendOne fails)) = c := by
  induction c with
  | nil => rfl
  | cons x xs ih =>
      by_cases h : fails x = true <;>
        simp [attempted, sendOne, h, evCid, List.filterMap_cons] at * <;>
        exact ih

/-- Helper: the attempted destinations of the chunk loop are the
concatenation of the chunks, in order. -/
lemma attempted_traceChunks (fails : α → Bool) :
    ∀ (idx : Nat) (cs : List (List α)),
      attempted (traceChunks fails idx cs) = cs.flatten := by
  intro idx cs
  induction cs generalizing idx with
  | nil => rfl
  | cons c cs ih =>
      rw [traceChunks, List.flatten_cons]
      show attempted (Ev.batchLog idx c.length ::
        (c.map (sendOne fails) ++ traceChunks fails (idx + 1) cs)) = _
      rw [attempted, List.filterMap_cons]
      show List.filterMap evCid (c.map (sendOne fails) ++ _) = _
      rw [List.filterMap_append]
      rw [show List.filterMap evCid (c.map (sendOne fails)) =
        attempted (c.map (sendOne fails)) from rfl]
      rw [attempted_map_sendOne]
      exact congrArg (fun t => c ++ t) (ih (idx + 1))

/-- Helper: one batch's inner loop is all send events, kept by the filter. -/
lemma sendEvents_map_sendOne (fails : α → Bool) (c : List α) :
    sendEvents (c.map (sendOne fails)) = c.map (sendOne fails) := by
  induction c with
  | nil => rfl
  | cons x xs ih =>
      by_cases h : fails x = true <;>
        simp [sendEvents, sendOne, h, isSendEv, List.filter_cons] at * <;>
        exact ih

/-- Helper: dropping log lines from the chunk-loop trace leaves one send
event per destination of the joined chunks, in order. -/
lemma sendEvents_traceChunks (fails : α → Bool) :
    ∀ (idx : Nat) (cs : List (List α)),
      sendEvents (traceChunks fails idx cs) = (cs.flatten).map (sendOne fails) := by
  intro idx cs
  induction cs generalizing idx with
  | nil => rfl
  | cons c cs ih =>
      rw [traceChunks, List.flatten_cons, List.map_append]
      show sendEvents (Ev.batchLog idx c.length ::
        (c.map (sendOne fails) ++ traceChunks fails (idx + 1) cs)) = _
      rw [sendEvents, List.filter_cons]
      show (if (isSendEv (Ev.batchLog idx c.length : Ev α)) = true then _ else
        List.filter isSendEv (c.map (sendOne fails) ++ _)) = _
      rw [if_neg (by simp [isSendEv])]
      rw [List.filter_append]
      rw [show List.filter isSendEv (c.map (sendOne fails)) =
        sendEvents (c.map (sendOne fails)) from rfl]
      rw [sendEvents_map_sendOne]
      exact congrArg (fun t => c.map (sendOne fails) ++ t) (ih (idx + 1))

end TgClient

/-- C3: for every batch size ≥ 1 and every failure oracle, the batch
broadcaster attempts every destination of the input exactly once, in input
order — a per-destination send failure is caught and never prevents the
remaining destinations from being attempted or aborts the batch. -/
theorem C3_every_destination_attempted (D : List α) (b : Nat) (hb : 1 ≤ b)
    (fails : α → Bool) :
    TgClient.attempted (TgClient.broadcastTrace fails D b) = D := by
  unfold TgClient.broadcastTrace
  rw [TgClient.attempted_traceChunks, TgClient.chunks_join b (by omega)]

/-- C3 witness: in a 5-entry batch where the send to the second destination
fails, all 5 destinations are attempted. -/
theorem C3_every_destination_attempted_witness :
    (1 : Nat) ≤ 2 ∧
    TgClient.attempted (TgClient.broadcastTrace (fun c => c = "b")
      ["a", "b", "c", "d", "e"] 2) = ["a", "b", "c", "d", "e"] :=
  ⟨by decide,
    C3_every_destination_attempted ["a", "b", "c", "d", "e"] 2 (by decide) _⟩

/-- C9: the chunked iteration of `broadcast` refines flat sequential
iteration — the send events of the chunked trace are exactly one per input
destination in input order (chunk boundaries affect only log lines), and the
chunks concatenate back to the input list. -/
theorem C9_chunked_refines_flat (D : List α) (b : Nat) (hb : 1 ≤ b)
    (fails : α → Bool) :
    TgClient.sendEvents (TgClient.broadcastTrace fails D b) =
      TgClient.flatTrace fails D ∧
    (TgClient.chunks b D).flatten = D := by
  constructor
  · unfold TgClient.broadcastTrace TgClient.flatTrace
    rw [TgClient.sendEvents_traceChunks, TgClient.chunks_join b (by omega)]
  · exact TgClient.chunks_join b (by omega) D

/-- C9 witness: for a 5-destination list with batch size 2 (last chunk
shorter), the chunked send events equal the flat iteration. -/
theorem C9_chunked_refines_flat_witness :
    (1 : Nat) ≤ 2 ∧
    TgClient.sendEvents (TgClient.broadcastTrace (fun n => n = 4)
      [1, 2, 3, 4, 5] 2) = TgClient.flatTrace (fun n => n = 4) [1, 2, 3, 4, 5] :=
  ⟨by decide, (C9_chunked_refines_flat [1, 2, 3, 4, 5] 2 (by decide) _).1⟩

namespace App

/-- A daily time slot (`datetime.time` restricted to hour/minute, as used by
the schedule UI). -/
structure Slot where
  hour : Nat
  minute : Nat
deriving DecidableEq

/-- Phase-2 trigger minute computed at apply time:
`minute2 = (t.minute + second_phase_offset_min) % 60`. -/
def minute2 (m off : Nat) : Nat := (m + off) % 60

/-- Phase-2 trigger hour computed at apply time:
`hour2 = (t.hour + (t.minute + second_phase_offset_min) // 60) % 24`. -/
def hour2 (h m off : Nat) : Nat := (h + (m + off) / 60) % 24

/-- Job names: the engine names its jobs
`tg_broadcast_phase{P}_{HH}{MM}` (modelled as `engine P H M`, which is
exactly the data the name string encodes); any job not named with the
`tg_broadcast` prefix is another owner's (`foreign`). -/
inductive JobName where
  | engine (phase : Nat) (h : Nat) (m : Nat)
  | foreign (tag : Nat)
deriving DecidableEq

/-- The `job.name and job.name.startswith("tg_broadcast")` test of
`schedule_jobs`. -/
def isEngineName : JobName → Bool
  | JobName.engine _ _ _ => true
  | JobName.foreign _ => false

/-- A job in the scheduler's job store: its name, its cron trigger's
hour/minute, and the `kwargs` dict `{"phase": ..., "batch_size": ...}`
captured when `add_job` was called. -/
structure Job where
  name : JobName
  trigHour : Nat
  trigMinute : Nat
  phase : Nat
  batch_size : Nat
deriving DecidableEq

/-- The phase-1 job registered by `schedule_jobs` for slot `t`: cron trigger
at `(t.hour, t.minute)`, kwargs `{"phase": 1, "batch_size": batch_size}`. -/
def phase1Job (t : Slot) (bs : Nat) : Job :=
  { name := JobName.engine 1 t.hour t.minute
    trigHour := t.hour, trigMinute := t.minute
    phase := 1, batch_size := bs }

/-- The phase-2 job registered by `schedule_jobs` for slot `t`: cron trigger
at `(hour2, minute2)`, kwargs `{"phase": 2, "batch_size": batch_size}`;
its name carries the slot's own hour/minute. -/
def phase2Job (t : Slot) (off bs : Nat) : Job :=
  { name := JobName.engine 2 t.hour t.minute
    trigHour := hour2 t.hour t.minute off, trigMinute := minute2 t.minute off
    phase := 2, batch_size := bs }

/-- Embedding of `app.schedule_jobs` acting on the scheduler's job store:
remove every job whose name starts with `tg_broadcast`, then add a phase-1
and a phase-2 job per slot. -/
def schedule_jobs (sched : List Job) (times : List Slot) (off bs : Nat) :
    List Job :=
  sched.filter (fun j => !(isEngineName j.name)) ++
    times.flatMap (fun t => [phase1Job t bs, phase2Job t off bs])

/-- The persistent store read by the jobs: the two JSON files, each possibly
absent. -/
structure Store where
  targets_file : Option Targets
  message_file : Option Message
deriving DecidableEq

/-- The arguments of one `run_broadcast_now(message_text, media_path,
batch_size, chat_ids)` invocation. -/
structure BroadcastCall where
  text : List Char
  media_path : Option (List Char)
  batch_size : Nat
  chat_ids : List String
deriving DecidableEq

/-- Embedding of `app.job_runner_sync`: reload targets and message from the
store, compute the phase subset, skip (log and return, `none`) when
`chat_ids` or the subset is empty, otherwise invoke the broadcast. -/
def job_runner_sync (store : Store) (phase : Nat) (batch_size : Nat) :
    Option BroadcastCall :=
  let cfg := load_targets store.targets_file
  let chat_ids := cfg.chat_ids
  if chat_ids = [] then none
  else
    let msg := load_message store.message_file
    let ids := phase_ids phase chat_ids batch_size
    if ids = [] then none
    else some { text := msg.text, media_path := msg.media_path
                batch_size := batch_size, chat_ids := ids }

/-- A scheduled job firing: the scheduler calls `job_runner_sync` with the
job's captured kwargs against the store as it is at fire time. -/
def fire (j : Job) (store : Store) : Option BroadcastCall :=
  job_runner_sync store j.phase j.batch_size

/-- Embedding of the `Send Now (batched)` / `Send test now` button handlers:
error when no targets are configured, otherwise one broadcast call with the
store's `default_batch_size` over all targets. -/
def send_now_click (store : Store) : Except String BroadcastCall :=
  let cfg := load_targets store.targets_file
  if cfg.chat_ids = [] then
    Except.error "No targets configured. Save targets first."
  else
    let msg := load_message store.message_file
    Except.ok { text := msg.text, media_path := msg.media_path
                batch_size := cfg.default_batch_size, chat_ids := cfg.chat_ids }

/-- Embedding of the `Apply schedule` button handler: error (scheduler
untouched) when no targets are configured, otherwise `schedule_jobs`. -/
def apply_schedule_click (store : Store) (sched : List Job)
    (times : List Slot) (off bs : Nat) : Except String (List Job) :=
  if (load_targets store.targets_file).chat_ids = [] then
    Except.error "No targets configured. Save targets first."
  else
    Except.ok (schedule_jobs sched times off bs)

end App

namespace Config

/-- Embedding of `config.Settings`. -/
structure Settings where
  token : String
  tz : String
deriving DecidableEq

/-- Token resolution of `config.py`:
`_secrets.get("TELEGRAM_BOT_TOKEN", os.environ.get("TELEGRAM_BOT_TOKEN", ""))`. -/
def resolveToken (secretsTok envTok : Option String) : String :=
  secretsTok.getD (envTok.getD "")

/-- Timezone resolution of `config.py`:
`_secrets.get("TZ", os.environ.get("TZ", "Africa/Nairobi"))`. -/
def resolveTz (secretsTz envTz : Option String) : String :=
  secretsTz.getD (envTz.getD "Africa/Nairobi")

/-- Embedding of the module-level startup check of `config.py`: construct
`settings`, then `if not settings.token: raise RuntimeError(...)` — loading
the module (and so the whole process) fails before any scheduling or sending
can happen. -/
def configInit (secretsTok envTok secretsTz envTz : Option String) :
    Except String Settings :=
  let s : Settings := { token := resolveToken secretsTok envTok
                        tz := resolveTz secretsTz envTz }
  if s.token = "" then
    Except.error "TELEGRAM_BOT_TOKEN missing (set in Streamlit Secrets or .env)"
  else
    Except.ok s

end Config

/-- Helper: every job registered by an apply has an engine name, so the
clear step of a later apply removes all of them. -/
lemma filter_not_engine_new (times : List App.Slot) (off bs : Nat) :
    ((times.flatMap fun t => [App.phase1Job t bs, App.phase2Job t off bs]).filter
      fun j => !(App.isEngineName j.name)) = [] := by
  induction times with
  | nil => rfl
  | cons t ts ih =>
      simp [List.flatMap_cons, List.filter_append, List.filter_cons,
        App.phase1Job, App.phase2Job, App.isEngineName, ih]
      intro a x hx h
      rcases h with rfl | rfl <;> rfl

/-- Helper: the jobs registered by an apply are all engine-owned. -/
lemma filter_engine_new (times : List App.Slot) (off bs : Nat) :
    ((times.flatMap fun t => [App.phase1Job t bs, App.phase2Job t off bs]).filter
      fun j => App.isEngineName j.name) =
    (times.flatMap fun t => [App.phase1Job t bs, App.phase2Job t off bs]) := by
  induction times with
  | nil => rfl
  | cons t ts ih =>
      simp [List.flatMap_cons, List.filter_append, List.filter_cons,
        App.phase1Job, App.phase2Job, App.isEngineName, ih]
      intro a x hx h
      rcases h with rfl | rfl <;> rfl

/-- Helper: an apply registers exactly two jobs per slot. -/
lemma length_new (times : List App.Slot) (off bs : Nat) :
    (times.flatMap fun t => [App.phase1Job t bs, App.phase2Job t off bs]).length =
      2 * times.length := by
  induction times with
  | nil => rfl
  | cons t ts ih =>
      simp only [List.flatMap_cons, List.length_append, List.length_cons,
        List.length_nil, ih, List.length_cons]
      omega

/-- Helper: clearing engine jobs twice is the same as clearing them once. -/
lemma filter_not_engine_idem (s : List App.Job) :
    ((s.filter fun j => !(App.isEngineName j.name)).filter
      fun j => !(App.isEngineName j.name)) =
    s.filter fun j => !(App.isEngineName j.name) := by
  induction s with
  | nil => rfl
  | cons j js ih =>
      by_cases h : App.isEngineName j.name <;>
        simp [List.filter_cons, h, ih]

/-- Helper: no engine job survives the clear step. -/
lemma filter_engine_after_clear (s : List App.Job) :
    ((s.filter fun j => !(App.isEngineName j.name)).filter
      fun j => App.isEngineName j.name) = [] := by
  induction s with
  | nil => rfl
  | cons j js ih =>
      by_cases h : App.isEngineName j.name <;>
        simp [List.filter_cons, h, ih]

/-- C5: re-applying the schedule replaces all engine-owned jobs — applying
with inputs `X` and then `Y` leaves exactly the job store that applying `Y`
alone would leave, and the engine-owned jobs after an apply number exactly
`2 × |Y.slots|`, regardless of prior applies. -/
theorem C5_reapply_only_latest (s : List App.Job) (X Y : List App.Slot)
    (ox bx oy b2 : Nat) :
    App.schedule_jobs (App.schedule_jobs s X ox bx) Y oy b2 =
      App.schedule_jobs s Y oy b2 ∧
    ((App.schedule_jobs s Y oy b2).filter
      fun j => App.isEngineName j.name).length = 2 * Y.length := by
  constructor
  · unfold App.schedule_jobs
    rw [List.filter_append, filter_not_engine_new, List.append_nil,
      filter_not_engine_idem]
  · unfold App.schedule_jobs
    rw [List.filter_append, filter_engine_new, filter_engine_after_clear,
      List.nil_append, length_new]

/-- C6: the phase-2 trigger registered at apply time has
minute `(m + offset) % 60` and hour `(h + (m + offset) / 60) % 24`; as
minutes-of-day this is exactly the slot time plus the offset modulo 24
hours, and slot 23:50 with offset 30 fires at 00:20. -/
theorem C6_phase2_wraparound (t : App.Slot) (off bs : Nat) :
    (App.phase2Job t off bs).trigMinute = (t.minute + off) % 60 ∧
    (App.phase2Job t off bs).trigHour = (t.hour + (t.minute + off) / 60) % 24 ∧
    (App.phase2Job t off bs).trigHour * 60 + (App.phase2Job t off bs).trigMinute =
      (t.hour * 60 + t.minute + off) % 1440 ∧
    App.hour2 23 50 30 = 0 ∧ App.minute2 50 30 = 20 := by
  refine ⟨rfl, rfl, ?_, by decide, by decide⟩
  show App.hour2 t.hour t.minute off * 60 + App.minute2 t.minute off = _
  unfold App.hour2 App.minute2
  omega

/-- Helper: `job_runner_sync` written without intermediate bindings. -/
lemma job_runner_sync_eq (store : App.Store) (p b : Nat) :
    App.job_runner_sync store p b =
      if (App.load_targets store.targets_file).chat_ids = [] then none
      else if App.phase_ids p (App.load_targets store.targets_file).chat_ids b
          = [] then none
      else some { text := (App.load_message store.message_file).text
                  media_path := (App.load_message store.message_file).media_path
                  batch_size := b
                  chat_ids :=
                    App.phase_ids p (App.load_targets store.targets_file).chat_ids b } :=
  rfl

/-- C7 counterexample: a fired job does NOT reload the batch size from the
store.  Store has `default_batch_size = 3` but the job was applied with
`batch_size = 2`: the fired phase-1 run sends to the first 2 targets, not
the first 3, so firing differs from running with the store's batch size. -/
theorem C7_counterexample :
    App.fire
      { name := App.JobName.engine 1 9 0, trigHour := 9, trigMinute := 0
        phase := 1, batch_size := 2 }
      { targets_file := some { chat_ids := ["a", "b", "c", "d"]
                               default_batch_size := 3 }
        message_file := some { text := ['h', 'i'], media_path := none } } ≠
    App.job_runner_sync
      { targets_file := some { chat_ids := ["a", "b", "c", "d"]
                               default_batch_size := 3 }
        message_file := some { text := ['h', 'i'], media_path := none } }
      1
      (App.load_targets (some { chat_ids := ["a", "b", "c", "d"]
                                default_batch_size := 3 })).default_batch_size := by
  decide

/-- C7 (amended): a fired job reloads the destination list and the message
payload from the store at fire time — two fire-time stores agreeing on
those (but not necessarily on `default_batch_size`) give identical runs —
while the batch size is the value captured in the job's kwargs at apply
time, and the run's subset is computed from the fire-time destinations with
that captured batch size. -/
theorem C7_fire_reloads_targets_and_message (j : App.Job) (s s' : App.Store)
    (hc : (App.load_targets s'.targets_file).chat_ids =
      (App.load_targets s.targets_file).chat_ids)
    (hm : App.load_message s'.message_file = App.load_message s.message_file) :
    App.fire j s' = App.fire j s ∧
    ∀ call, App.fire j s = some call →
      call.batch_size = j.batch_size ∧
      call.chat_ids = App.phase_ids j.phase
        (App.load_targets s.targets_file).chat_ids j.batch_size ∧
      call.text = (App.load_message s.message_file).text ∧
      call.media_path = (App.load_message s.message_file).media_path := by
  constructor
  · show App.job_runner_sync s' j.phase j.batch_size =
      App.job_runner_sync s j.phase j.batch_size
    rw [job_runner_sync_eq, job_runner_sync_eq, hc, hm]
  · intro call h
    rw [show App.fire j s = App.job_runner_sync s j.phase j.batch_size from rfl,
      job_runner_sync_eq] at h
    by_cases h1 : (App.load_targets s.targets_file).chat_ids = []
    · rw [if_pos h1] at h; cases h
    · rw [if_neg h1] at h
      by_cases h2 : App.phase_ids j.phase
          (App.load_targets s.targets_file).chat_ids j.batch_size = []
      · rw [if_pos h2] at h; cases h
      · rw [if_neg h2] at h
        injection h with h
        subst h
        exact ⟨rfl, rfl, rfl, rfl⟩

/-- C7 witness: with targets `["a","b","c"]`, a job applied with batch size
2 fires identically whether the store's `default_batch_size` is 3 or 99. -/
theorem C7_fire_reloads_witness :
    App.fire
      { name := App.JobName.engine 1 9 0, trigHour := 9, trigMinute := 0
        phase := 1, batch_size := 2 }
      { targets_file := some { chat_ids := ["a", "b", "c"]
                               default_batch_size := 99 }
        message_file := some { text := [], media_path := none } } =
    App.fire
      { name := App.JobName.engine 1 9 0, trigHour := 9, trigMinute := 0
        phase := 1, batch_size := 2 }
      { targets_file := some { chat_ids := ["a", "b", "c"]
                               default_batch_size := 3 }
        message_file := some { text := [], media_path := none } } :=
  (C7_fire_reloads_targets_and_message
    { name := App.JobName.engine 1 9 0, trigHour := 9, trigMinute := 0
      phase := 1, batch_size := 2 }
    { targets_file := some { chat_ids := ["a", "b", "c"]
                             default_batch_size := 3 }
      message_file := some { text := [], media_path := none } }
    { targets_file := some { chat_ids := ["a", "b", "c"]
                             default_batch_size := 99 }
      message_file := some { text := [], media_path := none } }
    rfl rfl).1

/-- Helper: the startup check of `config.py` without intermediate
bindings. -/
lemma configInit_eq (a b c d : Option String) :
    Config.configInit a b c d =
      if Config.resolveToken a b = "" then
        Except.error "TELEGRAM_BOT_TOKEN missing (set in Streamlit Secrets or .env)"
      else
        Except.ok { token := Config.resolveToken a b, tz := Config.resolveTz c d } :=
  rfl

/-- Helper: the send-now button handler without intermediate bindings. -/
lemma send_now_click_eq (store : App.Store) :
    App.send_now_click store =
      if (App.load_targets store.targets_file).chat_ids = [] then
        Except.error "No targets configured. Save targets first."
      else
        Except.ok { text := (App.load_message store.message_file).text
                    media_path := (App.load_message store.message_file).media_path
                    batch_size := (App.load_targets store.targets_file).default_batch_size
                    chat_ids := (App.load_targets store.targets_file).chat_ids } :=
  rfl

/-- C8: configuration errors fail fast and block sending: a missing bot
token makes the startup check raise before anything runs, and an empty
target list makes the scheduled job send nothing, the send-now/test handler
surface a blocking error, and the apply-schedule handler surface a blocking
error without touching the scheduler. -/
theorem C8_config_fail_fast (secretsTok envTok secretsTz envTz : Option String)
    (store : App.Store) (sched : List App.Job) (times : List App.Slot)
    (p b off bs : Nat)
    (htok : Config.resolveToken secretsTok envTok = "")
    (hempty : (App.load_targets store.targets_file).chat_ids = []) :
    Config.configInit secretsTok envTok secretsTz envTz =
      Except.error "TELEGRAM_BOT_TOKEN missing (set in Streamlit Secrets or .env)" ∧
    App.job_runner_sync store p b = none ∧
    App.send_now_click store =
      Except.error "No targets configured. Save targets first." ∧
    App.apply_schedule_click store sched times off bs =
      Except.error "No targets configured. Save targets first." := by
  refine ⟨?_, ?_, ?_, ?_⟩
  · rw [configInit_eq, if_pos htok]
  · rw [job_runner_sync_eq, if_pos hempty]
  · rw [send_now_click_eq, if_pos hempty]
  · unfold App.apply_schedule_click
    rw [if_pos hempty]

/-- C8 witness: with no token in secrets or environment and no targets file
on disk, startup fails, a fired job sends nothing, and both button handlers
error out. -/
theorem C8_config_fail_fast_witness :
    Config.resolveToken none none = "" ∧
    (App.load_targets (App.Store.mk none none).targets_file).chat_ids = [] ∧
    Config.configInit none none none none =
      Except.error "TELEGRAM_BOT_TOKEN missing (set in Streamlit Secrets or .env)" ∧
    App.job_runner_sync (App.Store.mk none none) 1 15 = none ∧
    App.send_now_click (App.Store.mk none none) =
      Except.error "No targets configured. Save targets first." :=
  ⟨rfl, rfl,
    (C8_config_fail_fast none none none none (App.Store.mk none none) [] []
      1 15 30 15 rfl rfl).1,
    (C8_config_fail_fast none none none none (App.Store.mk none none) [] []
      1 15 30 15 rfl rfl).2.1,
    (C8_config_fail_fast none none none none (App.Store.mk none none) [] []
      1 15 30 15 rfl rfl).2.2.1⟩

/-- C10: when the backing file is absent, `load_targets` returns the fixed
default record `{chat_ids: [], default_batch_size: 15}` and `load_message`
returns `{text: "", media_path: None}`, with every field present. -/
theorem C10_absent_file_defaults :
    App.load_targets none = { chat_ids := [], default_batch_size := 15 } ∧
    App.load_message none = { text := [], media_path := none } :=
  ⟨rfl, rfl⟩

namespace Gate

/-- State of the process around `SEND_LOCK = threading.Lock()`: who holds
the lock (if anyone) and each thread's program counter.  Two threads
(`Bool`) each run `run_broadcast_now`, whose body is
`with SEND_LOCK: asyncio.run(_runner())`: acquire the one process-wide
lock, perform its sends (`n t` of them for thread `t`), release.  Program
counter `0` = before the `with` statement; `1 ≤ pc ≤ n t` = about to do
send number `pc` while inside the `with` block; `n t + 1` = sends done,
about to leave the block (release); `n t + 2` = returned. -/
structure GState where
  lock : Option Bool
  pc : Bool → Nat

/-- Interleaving semantics of the two threads.  `threading.Lock.acquire`
blocks while the lock is held, so the acquire step fires only when the lock
is free; send and release steps are internal to the `with` block. -/
inductive GStep (n : Bool → Nat) : GState → GState → Prop where
  | acquire (t : Bool) (s : GState) (hpc : s.pc t = 0) (hlock : s.lock = none) :
      GStep n s ⟨some t, fun u => if u = t then 1 else s.pc u⟩
  | send (t : Bool) (s : GState) (h1 : 1 ≤ s.pc t) (h2 : s.pc t ≤ n t) :
      GStep n s ⟨s.lock, fun u => if u = t then s.pc t + 1 else s.pc u⟩
  | release (t : Bool) (s : GState) (hpc : s.pc t = n t + 1) :
      GStep n s ⟨none, fun u => if u = t then s.pc t + 1 else s.pc u⟩

/-- Both threads start outside the `with` block and the lock is free. -/
def init : GState := { lock := none, pc := fun _ => 0 }

/-- The states the process can reach. -/
def Reachable (n : Bool → Nat) (s : GState) : Prop :=
  Relation.ReflTransGen (GStep n) init s

/-- Thread `t` has a broadcast run in flight: it is inside the
`with SEND_LOCK` block (between acquiring and releasing). -/
def inFlight (n : Bool → Nat) (t : Bool) (s : GState) : Prop :=
  1 ≤ s.pc t ∧ s.pc t ≤ n t + 1

/-- The lock-ownership invariant: any thread inside the `with` block holds
the lock. -/
def Inv (n : Bool → Nat) (s : GState) : Prop :=
  ∀ t, inFlight n t s → s.lock = some t

lemma inv_init (n : Bool → Nat) : Inv n init := by
  intro t ht
  rcases ht with ⟨h1, _⟩
  exact absurd h1 (by simp [init])

lemma inv_step {n : Bool → Nat} {s s' : GState} (hInv : Inv n s)
    (hstep : GStep n s s') : Inv n s' := by
  cases hstep with
  | acquire t s hpc hlock =>
      intro u hu
      rcases hu with ⟨h1, h2⟩
      by_cases hut : u = t
      · simp [hut]
      · exfalso
        simp only [if_neg hut] at h1 h2
        have := hInv u ⟨h1, h2⟩
        rw [hlock] at this
        cases this
  | send t s hs1 hs2 =>
      intro u hu
      rcases hu with ⟨h1, h2⟩
      by_cases hut : u = t
      · subst hut
        exact hInv u ⟨hs1, Nat.le_succ_of_le hs2⟩
      · simp only [if_neg hut] at h1 h2
        exact hInv u ⟨h1, h2⟩
  | release t s hpc =>
      intro u hu
      rcases hu with ⟨h1, h2⟩
      by_cases hut : u = t
      · exfalso
        simp [hut] at h1 h2
        omega
      · exfalso
        simp [hut] at h1 h2
        have hu' := hInv u ⟨h1, h2⟩
        have ht' := hInv t ⟨by omega, by omega⟩
        rw [hu'] at ht'
        have huts : u = t := by injection ht'
        exact hut huts

lemma inv_reachable {n : Bool → Nat} {s : GState} (h : Reachable n s) :
    Inv n s := by
  induction h with
  | refl => exact inv_init n
  | tail _ hstep ih => exact inv_step ih hstep

end Gate

/-- C4: at most one broadcast run is in flight process-wide at any instant —
in every reachable state of the two-thread interleaving of
`run_broadcast_now` (each trigger wraps its sends in the one process-wide
blocking `SEND_LOCK`), the two threads are never simultaneously inside the
locked region, so sends of concurrent triggers are never interleaved. -/
theorem C4_mutual_exclusion (n : Bool → Nat) (s : Gate.GState)
    (h : Gate.Reachable n s) :
    ¬ (Gate.inFlight n true s ∧ Gate.inFlight n false s) := by
  rintro ⟨h1, h2⟩
  have hInv := Gate.inv_reachable h
  have e1 := hInv true h1
  have e2 := hInv false h2
  rw [e1] at e2
  have : (true : Bool) = false := by injection e2
  cases this

/-- C4 witness: in the state reached after thread `true` acquires the lock,
the two threads are not both in flight. -/
theorem C4_mutual_exclusion_witness :
    Gate.Reachable (fun _ => 3)
      { lock := some true, pc := fun u => if u = true then 1 else 0 } ∧
    ¬ (Gate.inFlight (fun _ => 3) true
        { lock := some true, pc := fun u => if u = true then 1 else 0 } ∧
      Gate.inFlight (fun _ => 3) false
        { lock := some true, pc := fun u => if u = true then 1 else 0 }) :=
  ⟨Relation.ReflTransGen.single (Gate.GStep.acquire true Gate.init rfl rfl),
    C4_mutual_exclusion (fun _ => 3)
      { lock := some true, pc := fun u => if u = true then 1 else 0 }
      (Relation.ReflTransGen.single (Gate.GStep.acquire true Gate.init rfl rfl))⟩
